import Mathlib

/-!
Verification of the scrape-dedupe-notify pipeline of `job_bot.py`.

The Python program is shallowly embedded: the SQLite `sent_jobs` table
(a single column of primary-key job ids plus a timestamp) is modelled as
a `List String` of ids in insertion order; `send_telegram_message` is an
oracle `Nat → Bool` giving the reported result of the n-th send call of a
run; Playwright pages are oracles from selector strings to matched
elements.  Exceptions (sqlite3.IntegrityError, KeyError, TimeoutError,
the captcha RuntimeError) are modelled with `Except` / explicit flags.
-/

/-- A scraped posting: `{"id": jk, "title": title, "url": ...}` built in
`scrape_indeed_jobs_pw`. -/
structure Job where
  id : String
  title : String
  url : String
deriving DecidableEq, Repr

/-- Constant `JOBS_TO_SEND = 8` of job_bot.py. -/
def JOBS_TO_SEND : Nat := 8

/-- Constant `JOBS_TO_SCRAPE = 33` of job_bot.py. -/
def JOBS_TO_SCRAPE : Nat := 33

/-- Query `SELECT 1 FROM sent_jobs WHERE job_id=?` followed by `fetchone()`:
true iff the id is in the store. -/
def dbContains (store : List String) (id : String) : Bool :=
  store.contains id

/-- Statement `INSERT INTO sent_jobs (job_id, sent_at) VALUES (?, ?)` on a table
declared `job_id TEXT PRIMARY KEY`: inserting a fresh id appends it;
inserting an existing id raises sqlite3.IntegrityError (the `INSERT` has
no `OR IGNORE` / `ON CONFLICT` clause), modelled as `Except.error ()`. -/
def dbInsert (store : List String) (id : String) : Except Unit (List String) :=
  if store.contains id then Except.error () else Except.ok (store ++ [id])

/-- The filter loop of `send_new_jobs` (job_bot.py lines 283-289):

    new = []
    for j in jobs:
        c.execute("SELECT 1 FROM sent_jobs WHERE job_id=?", (j["id"],))
        if not c.fetchone():
            new.append(j)
        if len(new) >= JOBS_TO_SEND:
            break

`acc` is the `new` accumulator; the break test runs after every
iteration, append or not. -/
def selectNewAux (store : List String) (acc : List Job) : List Job → List Job
  | [] => acc
  | j :: rest =>
    let acc' := if dbContains store j.id then acc else acc ++ [j]
    if JOBS_TO_SEND ≤ acc'.length then acc' else selectNewAux store acc' rest

/-- The `new` list computed by `send_new_jobs` before any send. -/
def selectNew (store : List String) (jobs : List Job) : List Job :=
  selectNewAux store [] jobs

/-- Outcome of one call to `send_new_jobs`.  `events` records each
`send_telegram_message` call of the run, in order, with its reported
result; `store` is the `sent_jobs` table afterwards (at the raise point
when `aborted`); `count` the function's return value; `aborted` is true
when an uncaught sqlite3.IntegrityError escaped the send loop. -/
structure RunResult where
  events : List (Job × Bool)
  store : List String
  count : Nat
  aborted : Bool
deriving DecidableEq, Repr

/-- The send loop of `send_new_jobs` (job_bot.py lines 293-300):

    for j in new:
        txt = ...
        if send_telegram_message(...):
            c.execute("INSERT INTO sent_jobs ...")
            conn.commit()
            count += 1

`sendOk k` is the reported result of the k-th send call (0-based).  A
successful send of an id already present raises IntegrityError from the
`INSERT`, which `send_new_jobs` does not catch: the run aborts with the
store as committed so far. -/
def sendLoop (sendOk : Nat → Bool) : List Job → List String → Nat → Nat → RunResult
  | [], store, _, count => ⟨[], store, count, false⟩
  | j :: rest, store, calls, count =>
    if sendOk calls then
      match dbInsert store j.id with
      | Except.error _ => ⟨[(j, true)], store, count, true⟩
      | Except.ok store' =>
        let r := sendLoop sendOk rest store' (calls + 1) (count + 1)
        ⟨(j, true) :: r.events, r.store, r.count, r.aborted⟩
    else
      let r := sendLoop sendOk rest store (calls + 1) count
      ⟨(j, false) :: r.events, r.store, r.count, r.aborted⟩

/-- Function `send_new_jobs(conn, jobs)` (job_bot.py lines 281-300): filter to the
first ≤ 8 postings absent from the store, then send each, recording on
reported success.  (The `if not new: return 0` early exit coincides with
`sendLoop` on `[]`.) -/
def send_new_jobs (sendOk : Nat → Bool) (store : List String) (jobs : List Job) :
    RunResult :=
  sendLoop sendOk (selectNew store jobs) store 0 0

/-- Number of postings of the scraped sequence absent from the store
(occurrences counted, as the filter loop does). -/
def countUnsent (store : List String) (jobs : List Job) : Nat :=
  (jobs.filter (fun j => !dbContains store j.id)).length

/-- Result of `handle_test`: the texts passed to `send_telegram_message`
during the invocation, in order, and the `sent_jobs` table afterwards. -/
structure TestResult where
  texts : List String
  store : List String
deriving DecidableEq, Repr

/-- Function `handle_test(conn, cookies)` (job_bot.py lines 302-315), after the
scrape has produced `jobs`:

    unsent = [j for j in jobs if not c.execute(...).fetchone()]
    if not unsent:
        send_telegram_message(..., "No new jobs to send.")
        return
    job = random.choice(unsent)
    ...
    if send_telegram_message(..., txt): INSERT; commit

`random.choice` is modelled by an arbitrary index `pick` reduced modulo
the list length; `sendOk` is the reported result of the posting's send
call. -/
def handle_test (store : List String) (jobs : List Job) (pick : Nat) (sendOk : Bool) :
    TestResult :=
  let unsent := jobs.filter (fun j => !dbContains store j.id)
  if unsent.isEmpty then
    ⟨["No new jobs to send."], store⟩
  else
    let job := unsent.getD (pick % unsent.length) ⟨"", "", ""⟩
    let txt := job.title ++ "\n" ++ job.url
    if sendOk then ⟨[txt], store ++ [job.id]⟩ else ⟨[txt], store⟩

/-- One raw cookie object of the `COOKIE_JSON` array: every field the
loader touches, `none` when the key is absent from the JSON object. -/
structure RawCookie where
  name : Option String
  value : Option String
  domain : Option String
  path : Option String
  httpOnly : Option Bool
  secure : Option Bool
  sameSite : Option String
  expirationDate : Option Int
deriving DecidableEq, Repr

/-- A sanitized Playwright cookie as appended by the loader. -/
structure SessionCookie where
  name : String
  value : String
  domain : String
  path : String
  httpOnly : Bool
  secure : Bool
  sameSite : String
  expires : Int
deriving DecidableEq, Repr

/-- One iteration of the loop in `load_playwright_cookies` (job_bot.py
lines 57-70).  `c.get(k, d)` defaults, but `c["name"]`, `c["value"]`,
`c["domain"]` raise KeyError when the key is absent — the loader has no
try/except around the loop, so the error (carried here as the offending
key) escapes the whole load.  The dict literal evaluates its values in
order: name, value, domain. -/
def sanitizeCookie (c : RawCookie) : Except String SessionCookie :=
  let ss0 := c.sameSite.getD "Lax"
  let ss := if ss0 = "Strict" || ss0 = "Lax" || ss0 = "None" then ss0 else "Lax"
  match c.name with
  | none => Except.error "name"
  | some n =>
    match c.value with
    | none => Except.error "value"
    | some v =>
      match c.domain with
      | none => Except.error "domain"
      | some d =>
        Except.ok ⟨n, v, d, c.path.getD "/", c.httpOnly.getD false,
          c.secure.getD false, ss, c.expirationDate.getD 0⟩

/-- Function `load_playwright_cookies()` (job_bot.py lines 43-71) from the parsed
JSON array onward: sanitize each entry in order, appending to
`sanitized`; a KeyError on any entry aborts the load (and, uncaught in
`main`, the process). -/
def load_playwright_cookies : List RawCookie → Except String (List SessionCookie)
  | [] => Except.ok []
  | c :: rest =>
    match sanitizeCookie c with
    | Except.error k => Except.error k
    | Except.ok sc =>
      match load_playwright_cookies rest with
      | Except.error k => Except.error k
      | Except.ok scs => Except.ok (sc :: scs)

/-- A DOM element as the extractor sees it: the identifier attribute
read by `el.get_attribute('data-jk')`, the `href` attribute, and the
inner text of the nested title element when
`el.query_selector('h2.jobTitle span') or el.query_selector('span[title]')`
finds one. -/
structure Element where
  dataJk : Option String
  href : Option String
  titleText : Option String
deriving DecidableEq, Repr

/-- A rendered results page: what `page.query_selector_all(sel)` (and the
successful/failing `page.wait_for_selector(sel)`) returns per selector. -/
structure Page where
  querySelectorAll : String → List Element

/-- The fixed selector candidate list of `scrape_indeed_jobs_pw`
(job_bot.py lines 115-123), in priority order. -/
def selectors : List String :=
  ["a.tapItem",
   "div.job_seen_beacon a",
   "a[data-jk]",
   "a[aria-label*=Job]",
   "a[data-testid=jobTitle]",
   "a[href*=/rc/clk?]",
   "a.jobtitle"]

/-- The selector search loop (job_bot.py lines 197-204): try each
selector in order; `wait_for_selector` succeeds iff the page has a match
for it, the first success wins; `none` when every candidate times out. -/
def findSelector (page : Page) : List String → Option String
  | [] => none
  | s :: rest => if (page.querySelectorAll s).isEmpty then findSelector page rest else some s

/-- Python `sep in s` for a non-empty separator, on character lists. -/
def containsSub (sep : List Char) : List Char → Bool
  | [] => sep.isPrefixOf ([] : List Char)
  | c :: rest => sep.isPrefixOf (c :: rest) || containsSub sep rest

/-- The suffix after the first occurrence of `sep` (meaningful only when
`containsSub sep s` holds). -/
def afterFirst (sep : List Char) : List Char → List Char
  | [] => []
  | c :: rest =>
    if sep.isPrefixOf (c :: rest) then (c :: rest).drop sep.length
    else afterFirst sep rest

/-- The prefix before the first occurrence of `sep` (all of `s` when
`sep` does not occur): Python `s.split(sep)[0]`. -/
def takeUntilSub (sep : List Char) : List Char → List Char
  | [] => []
  | c :: rest =>
    if sep.isPrefixOf (c :: rest) then []
    else c :: takeUntilSub sep rest

/-- Python `href.split('jk=')[1].split('&')[0]`, guarded by
`'jk=' in href` (job_bot.py lines 222-226): `none` models the `continue`
(element skipped).  `split('jk=')[1]` is the segment after the first
`jk=` up to the next `jk=` (or the end), and `.split('&')[0]` then cuts
it at the first `&`; note the extracted token may be the empty string. -/
def extractJk (href : String) : Option String :=
  let cs := href.toList
  let jk := "jk=".toList
  if containsSub jk cs then
    some (String.mk (takeUntilSub "&".toList (takeUntilSub jk (afterFirst jk cs))))
  else none

/-- The per-element extraction loop (job_bot.py lines 218-229):

    for el in els:
        if len(jobs)>=max_results: break
        jk = el.get_attribute('data-jk') or ""
        if not jk:
            href = el.get_attribute('href') or ""
            if 'jk=' in href: jk = href.split('jk=')[1].split('&')[0]
            else: continue
        title = ... or "Job"
        jobs.append({id, title, url=f"...viewjob?jk={jk}"})
-/
def extractLoop (maxResults : Nat) : List Element → List Job → List Job
  | [], jobs => jobs
  | el :: rest, jobs =>
    if maxResults ≤ jobs.length then jobs
    else
      let jk0 := (el.dataJk.getD "")
      match (if jk0 = "" then extractJk (el.href.getD "") else some jk0) with
      | none => extractLoop maxResults rest jobs
      | some jk =>
        let title := match el.titleText with
          | some t => t.trim
          | none => "Job"
        extractLoop maxResults rest
          (jobs ++ [⟨jk, title, "https://uk.indeed.com/viewjob?jk=" ++ jk⟩])

/-- Extraction over a list of matched elements, empty accumulator. -/
def extractJobs (els : List Element) (maxResults : Nat) : List Job :=
  extractLoop maxResults els []

/-- One attempt's extraction phase, after the challenge check passed:
`none` models the `raise TimeoutError("No known selector found...")`
when no selector candidate matches (a scraping failure feeding the retry
path), `some jobs` a normal return — including `some []` for a genuine
zero-results page. -/
def extractAttempt (page : Page) (maxResults : Nat) : Option (List Job) :=
  match findSelector page selectors with
  | none => none
  | some sel => some (extractJobs (page.querySelectorAll sel) maxResults)

/-- Outcome of one attempt of the retry loop, as classified by the
`except` clause (job_bot.py lines 235-267): `captcha` is the
`RuntimeError("Blocked by Captcha or Bot detection")` raised at line
195; `noSelector` the TimeoutError raised at line 215; `otherError b`
any other exception, with `b` true iff its text contains "Captcha" or
(lowercased) "blocked"; `success` a normal return of the `try` body. -/
inductive AttemptOutcome where
  | success (jobs : List Job)
  | captcha
  | noSelector
  | otherError (blockedText : Bool)
deriving DecidableEq, Repr

/-- Classify an attempt on a statically rendered page with no challenge
markers and no navigation failure. -/
def attemptOutcomeOfPage (page : Page) (maxResults : Nat) : AttemptOutcome :=
  match extractAttempt page maxResults with
  | some jobs => AttemptOutcome.success jobs
  | none => AttemptOutcome.noSelector

/-- The retry loop `for attempt in range(1, max_retries+1)` of
`scrape_indeed_jobs_pw` (job_bot.py lines 131-267).  `outcome n` is
attempt n's outcome (1-based), `remaining` the attempts the `range` still
allows.  Returns the Python return value (`none` = falling off the loop,
Python `None`; `some l` = an explicit `return l`) paired with the number
of attempts performed.  The captcha/blocked test runs before the
`attempt < max_retries` test, so either halts the loop at once. -/
def scrapeLoopAux (outcome : Nat → AttemptOutcome) (attempt : Nat) :
    Nat → Option (List Job) × Nat
  | 0 => (none, 0)
  | remaining + 1 =>
    match outcome attempt with
    | AttemptOutcome.success jobs => (some jobs, 1)
    | AttemptOutcome.captcha => (some [], 1)
    | AttemptOutcome.noSelector =>
      if remaining = 0 then (some [], 1)
      else
        let r := scrapeLoopAux outcome (attempt + 1) remaining
        (r.1, r.2 + 1)
    | AttemptOutcome.otherError blockedText =>
      if blockedText then (some [], 1)
      else if remaining = 0 then (some [], 1)
      else
        let r := scrapeLoopAux outcome (attempt + 1) remaining
        (r.1, r.2 + 1)

/-- Function `scrape_indeed_jobs_pw(query, location, cookies, max_results,
max_retries=3)`: the retry controller, abstracted over the per-attempt
outcome. -/
def scrape_indeed_jobs_pw (outcome : Nat → AttemptOutcome)
    (maxRetries : Nat := 3) : Option (List Job) × Nat :=
  scrapeLoopAux outcome 1 maxRetries

/-! ### Helper lemmas about the filter loop of `send_new_jobs` -/

theorem selectNewAux_mem (store : List String) :
    ∀ (jobs acc : List Job) (j : Job), j ∈ selectNewAux store acc jobs →
      j ∈ acc ∨ (dbContains store j.id = false ∧ j ∈ jobs) := by
  intro jobs
  induction jobs with
  | nil =>
    intro acc j h
    rw [selectNewAux] at h
    exact Or.inl h
  | cons a rest ih =>
    intro acc j h
    by_cases hc : dbContains store a.id = true
    · simp only [selectNewAux, hc, if_true] at h
      by_cases hb : JOBS_TO_SEND ≤ acc.length
      · rw [if_pos hb] at h
        exact Or.inl h
      · rw [if_neg hb] at h
        rcases ih acc j h with h' | ⟨h1, h2⟩
        · exact Or.inl h'
        · exact Or.inr ⟨h1, List.mem_cons_of_mem _ h2⟩
    · rw [Bool.not_eq_true] at hc
      simp only [selectNewAux, hc, Bool.false_eq_true, if_false] at h
      by_cases hb : JOBS_TO_SEND ≤ (acc ++ [a]).length
      · rw [if_pos hb] at h
        rcases List.mem_append.mp h with h' | h'
        · exact Or.inl h'
        · rcases List.mem_singleton.mp h' with rfl
          exact Or.inr ⟨hc, List.mem_cons_self _ _⟩
      · rw [if_neg hb] at h
        rcases ih (acc ++ [a]) j h with h' | ⟨h1, h2⟩
        · rcases List.mem_append.mp h' with h'' | h''
          · exact Or.inl h''
          · rcases List.mem_singleton.mp h'' with rfl
            exact Or.inr ⟨hc, List.mem_cons_self _ _⟩
        · exact Or.inr ⟨h1, List.mem_cons_of_mem _ h2⟩

theorem selectNewAux_append (store : List String) :
    ∀ (jobs acc : List Job), ∃ l, selectNewAux store acc jobs = acc ++ l ∧
      l.Sublist jobs := by
  intro jobs
  induction jobs with
  | nil =>
    intro acc
    exact ⟨[], by rw [selectNewAux, List.append_nil], List.Sublist.refl _⟩
  | cons a rest ih =>
    intro acc
    by_cases hc : dbContains store a.id = true
    · by_cases hb : JOBS_TO_SEND ≤ acc.length
      · refine ⟨[], ?_, List.nil_sublist _⟩
        simp only [selectNewAux, hc, if_true, if_pos hb, List.append_nil]
      · obtain ⟨l, hl, hsub⟩ := ih acc
        refine ⟨l, ?_, hsub.cons a⟩
        simp only [selectNewAux, hc, if_true, if_neg hb, hl]
    · rw [Bool.not_eq_true] at hc
      by_cases hb : JOBS_TO_SEND ≤ (acc ++ [a]).length
      · refine ⟨[a], ?_, (List.nil_sublist rest).cons₂ a⟩
        simp only [selectNewAux, hc, Bool.false_eq_true, if_false, if_pos hb]
      · obtain ⟨l, hl, hsub⟩ := ih (acc ++ [a])
        refine ⟨a :: l, ?_, hsub.cons₂ a⟩
        simp only [selectNewAux, hc, Bool.false_eq_true, if_false, if_neg hb, hl,
          List.append_assoc, List.singleton_append]

theorem selectNewAux_length (store : List String) :
    ∀ (jobs acc : List Job), acc.length < JOBS_TO_SEND →
      (selectNewAux store acc jobs).length =
        min (acc.length + countUnsent store jobs) JOBS_TO_SEND := by
  intro jobs
  induction jobs with
  | nil =>
    intro acc hlt
    rw [selectNewAux]
    simp only [countUnsent, List.filter_nil, List.length_nil, Nat.add_zero]
    omega
  | cons a rest ih =>
    intro acc hlt
    by_cases hc : dbContains store a.id = true
    · have hcnt : countUnsent store (a :: rest) = countUnsent store rest := by
        simp only [countUnsent, List.filter_cons, hc, Bool.not_true, Bool.false_eq_true,
          if_false]
      have hb : ¬ JOBS_TO_SEND ≤ acc.length := Nat.not_le_of_lt hlt
      simp only [selectNewAux, hc, if_true, if_neg hb, hcnt]
      exact ih acc hlt
    · rw [Bool.not_eq_true] at hc
      have hcnt : countUnsent store (a :: rest) = countUnsent store rest + 1 := by
        simp only [countUnsent, List.filter_cons, hc, Bool.not_false, if_true,
          List.length_cons]
      by_cases hb : JOBS_TO_SEND ≤ (acc ++ [a]).length
      · simp only [selectNewAux, hc, Bool.false_eq_true, if_false, if_pos hb, hcnt]
        simp only [List.length_append, List.length_singleton] at hb ⊢
        omega
      · simp only [selectNewAux, hc, Bool.false_eq_true, if_false, if_neg hb, hcnt]
        have hlt' : (acc ++ [a]).length < JOBS_TO_SEND := by
          simp only [List.length_append, List.length_singleton] at hb ⊢
          omega
        rw [ih (acc ++ [a]) hlt']
        simp only [List.length_append, List.length_singleton]
        omega

/-! ### Helper lemmas about the send loop of `send_new_jobs` -/

theorem sendLoop_events_mem (sendOk : Nat → Bool) :
    ∀ (new : List Job) (store : List String) (calls count : Nat) (e : Job × Bool),
      e ∈ (sendLoop sendOk new store calls count).events → e.1 ∈ new := by
  intro new
  induction new with
  | nil =>
    intro store calls count e h
    rw [sendLoop] at h
    exact absurd h (List.not_mem_nil e)
  | cons j rest ih =>
    intro store calls count e h
    by_cases hs : sendOk calls = true
    · simp only [sendLoop, hs, if_true] at h
      cases hins : dbInsert store j.id with
      | error u =>
        rw [hins] at h
        rcases List.mem_singleton.mp h with rfl
        exact List.mem_cons_self _ _
      | ok store' =>
        rw [hins] at h
        rcases List.mem_cons.mp h with rfl | h'
        · exact List.mem_cons_self _ _
        · exact List.mem_cons_of_mem _ (ih store' (calls + 1) (count + 1) e h')
    · rw [Bool.not_eq_true] at hs
      simp only [sendLoop, hs, Bool.false_eq_true, if_false] at h
      rcases List.mem_cons.mp h with rfl | h'
      · exact List.mem_cons_self _ _
      · exact List.mem_cons_of_mem _ (ih store (calls + 1) count e h')

theorem contains_iff_mem (l : List String) (s : String) :
    l.contains s = true ↔ s ∈ l := by
  simp [List.contains]

theorem sendLoop_store_mem (sendOk : Nat → Bool) :
    ∀ (new : List Job) (store : List String) (calls count : Nat) (id : String),
      (sendLoop sendOk new store calls count).store.contains id = true ↔
        (store.contains id = true ∨
          ∃ e ∈ (sendLoop sendOk new store calls count).events,
            e.1.id = id ∧ e.2 = true) := by
  intro new
  induction new with
  | nil =>
    intro store calls count id
    rw [sendLoop]
    simp
  | cons j rest ih =>
    intro store calls count id
    by_cases hs : sendOk calls = true
    · simp only [sendLoop, hs, if_true]
      cases hins : dbInsert store j.id with
      | error u =>
        have hcont : store.contains j.id = true := by
          by_contra hn
          rw [Bool.not_eq_true] at hn
          simp only [dbInsert, hn, Bool.false_eq_true, if_false] at hins
          exact Except.noConfusion hins
        simp only [List.mem_singleton]
        constructor
        · intro h
          exact Or.inl h
        · rintro (h | ⟨e, rfl, he, _⟩)
          · exact h
          · rw [← he]
            exact hcont
      | ok store' =>
        have hstore' : store' = store ++ [j.id] := by
          by_cases hn : store.contains j.id = true
          · simp only [dbInsert, hn, if_true] at hins
            exact Except.noConfusion hins
          · rw [Bool.not_eq_true] at hn
            simp only [dbInsert, hn, Bool.false_eq_true, if_false, Except.ok.injEq] at hins
            exact hins.symm
        rw [ih store' (calls + 1) (count + 1) id, hstore']
        rw [contains_iff_mem, contains_iff_mem, List.mem_append, List.mem_singleton,
          ← contains_iff_mem]
        constructor
        · rintro (h | ⟨e, he, hid, hok⟩)
          · rcases h with h | h
            · exact Or.inl h
            · refine Or.inr ⟨(j, true), List.mem_cons_self _ _, h.symm, rfl⟩
          · exact Or.inr ⟨e, List.mem_cons_of_mem _ he, hid, hok⟩
        · rintro (h | ⟨e, he, hid, hok⟩)
          · exact Or.inl (Or.inl h)
          · rcases List.mem_cons.mp he with rfl | he'
            · exact Or.inl (Or.inr hid.symm)
            · exact Or.inr ⟨e, he', hid, hok⟩
    · rw [Bool.not_eq_true] at hs
      simp only [sendLoop, hs, Bool.false_eq_true, if_false]
      rw [ih store (calls + 1) count id]
      constructor
      · rintro (h | ⟨e, he, hid, hok⟩)
        · exact Or.inl h
        · exact Or.inr ⟨e, List.mem_cons_of_mem _ he, hid, hok⟩
      · rintro (h | ⟨e, he, hid, hok⟩)
        · exact Or.inl h
        · rcases List.mem_cons.mp he with rfl | he'
          · exact absurd hok (by simp)
          · exact Or.inr ⟨e, he', hid, hok⟩

theorem sendLoop_length_of_nodup (sendOk : Nat → Bool) :
    ∀ (new : List Job) (store : List String) (calls count : Nat),
      (new.map Job.id).Nodup → (∀ j ∈ new, store.contains j.id = false) →
      (sendLoop sendOk new store calls count).events.length = new.length := by
  intro new
  induction new with
  | nil =>
    intro store calls count _ _
    rw [sendLoop]
    rfl
  | cons j rest ih =>
    intro store calls count hnd habs
    have hj : store.contains j.id = false := habs j (List.mem_cons_self _ _)
    have hnd' : (rest.map Job.id).Nodup := by
      rw [List.map_cons] at hnd
      exact hnd.of_cons
    have hne : ∀ j' ∈ rest, j'.id ≠ j.id := by
      intro j' hj' heq
      rw [List.map_cons, List.nodup_cons] at hnd
      exact hnd.1 (heq ▸ List.mem_map_of_mem Job.id hj')
    by_cases hs : sendOk calls = true
    · have hins : dbInsert store j.id = Except.ok (store ++ [j.id]) := by
        simp only [dbInsert, hj, Bool.false_eq_true, if_false]
      simp only [sendLoop, hs, if_true, hins, List.length_cons, List.length_map]
      have habs' : ∀ j' ∈ rest, (store ++ [j.id]).contains j'.id = false := by
        intro j' hj'
        rw [← Bool.not_eq_true, contains_iff_mem, List.mem_append, List.mem_singleton]
        rintro (hmem | heq)
        · exact absurd ((contains_iff_mem store j'.id).mpr hmem)
            (by rw [habs j' (List.mem_cons_of_mem _ hj')]; exact Bool.false_ne_true)
        · exact hne j' hj' heq
      rw [ih (store ++ [j.id]) (calls + 1) (count + 1) hnd' habs']
    · rw [Bool.not_eq_true] at hs
      simp only [sendLoop, hs, Bool.false_eq_true, if_false, List.length_cons]
      rw [ih store (calls + 1) count hnd' (fun j' hj' => habs j' (List.mem_cons_of_mem _ hj'))]

/-! ### Helper lemmas about the retry controller, selector search and loader -/

theorem scrapeLoopAux_noSelector (outcome : Nat → AttemptOutcome)
    (h : ∀ n, outcome n = AttemptOutcome.noSelector) :
    ∀ (rem attempt : Nat), scrapeLoopAux outcome attempt (rem + 1) = (some [], rem + 1) := by
  intro rem
  induction rem with
  | zero =>
    intro attempt
    rw [scrapeLoopAux, h attempt]
    rfl
  | succ r ihr =>
    intro attempt
    rw [scrapeLoopAux, h attempt]
    simp [ihr (attempt + 1)]

theorem findSelector_eq_none (page : Page) :
    ∀ l : List String, (∀ s ∈ l, page.querySelectorAll s = []) →
      findSelector page l = none := by
  intro l
  induction l with
  | nil => intro _; rw [findSelector]
  | cons s rest ih =>
    intro h
    rw [findSelector]
    rw [h s (List.mem_cons_self _ _)]
    simp only [List.isEmpty_nil, if_true]
    exact ih (fun s' hs' => h s' (List.mem_cons_of_mem _ hs'))

theorem sanitizeCookie_error (c : RawCookie)
    (h : c.name = none ∨ c.value = none ∨ c.domain = none) :
    ∃ k, sanitizeCookie c = Except.error k := by
  rw [sanitizeCookie]
  cases hn : c.name with
  | none => exact ⟨"name", rfl⟩
  | some n =>
    cases hv : c.value with
    | none => exact ⟨"value", rfl⟩
    | some v =>
      cases hd : c.domain with
      | none => exact ⟨"domain", rfl⟩
      | some d =>
        rw [hn, hv, hd] at h
        rcases h with h | h | h <;> exact absurd h (Option.some_ne_none _)

/-! ### Claim theorems -/

/-- Claim C1: every posting on which the batch dispatcher attempts a send
(every `send_telegram_message` call of a `send_new_jobs` run) has an id
that was absent from the Dedup Store at the time of the pre-send check,
so a posting already in the store is never sent again, even when it
reappears in a fresh scrape. -/
theorem send_new_jobs_no_resend (sendOk : Nat → Bool) (store : List String)
    (jobs : List Job) (e : Job × Bool)
    (h : e ∈ (send_new_jobs sendOk store jobs).events) :
    dbContains store e.1.id = false := by
  have h1 : e.1 ∈ selectNew store jobs :=
    sendLoop_events_mem sendOk _ store 0 0 e h
  rcases selectNewAux_mem store jobs [] e.1 h1 with h' | ⟨h2, _⟩
  · exact absurd h' (List.not_mem_nil _)
  · exact h2

/-- Witness for C1: a concrete run over store `["x"]` and a fresh
posting `"a"`; the send event's id was indeed absent from the store. -/
theorem send_new_jobs_no_resend_witness :
    dbContains ["x"] (Prod.fst (Job.mk "a" "t" "u", true)).id = false :=
  send_new_jobs_no_resend (fun _ => true) ["x"] [Job.mk "a" "t" "u"]
    (Job.mk "a" "t" "u", true) (by decide)

/-- Claim C2: for an id not already in the Dedup Store, the id is in the
store after a `send_new_jobs` run iff some send of a posting with that id
was reported successful during the run; in particular a failed send
leaves the store unchanged for that posting. -/
theorem send_new_jobs_recorded_iff_success (sendOk : Nat → Bool)
    (store : List String) (jobs : List Job) (id : String)
    (h : dbContains store id = false) :
    dbContains (send_new_jobs sendOk store jobs).store id = true ↔
      ∃ e ∈ (send_new_jobs sendOk store jobs).events,
        e.1.id = id ∧ e.2 = true := by
  simp only [dbContains] at h ⊢
  rw [send_new_jobs] at *
  constructor
  · intro hc
    rcases (sendLoop_store_mem sendOk (selectNew store jobs) store 0 0 id).mp hc
      with h' | h''
    · rw [h] at h'
      exact absurd h' Bool.false_ne_true
    · exact h''
  · intro hex
    exact (sendLoop_store_mem sendOk (selectNew store jobs) store 0 0 id).mpr
      (Or.inr hex)

/-- Witness for C2: after a concrete run on the empty store in which the
single send of posting `"a"` is reported successful, `"a"` is recorded. -/
theorem send_new_jobs_recorded_iff_success_witness :
    dbContains (send_new_jobs (fun _ => true) [] [Job.mk "a" "t" "u"]).store "a" = true :=
  (send_new_jobs_recorded_iff_success (fun _ => true) [] [Job.mk "a" "t" "u"] "a"
    (by decide)).mpr ⟨(Job.mk "a" "t" "u", true), by decide, rfl, rfl⟩

/-- Counterexample for C3: recording an id that is already present is an
error, not a no-op — the plain `INSERT` on the `job_id TEXT PRIMARY KEY`
column raises sqlite3.IntegrityError. -/
theorem dbInsert_duplicate_raises : dbInsert ["a"] "a" = Except.error () := rfl

/-- Amended C3: recording a fresh job id appends it; recording an id
already present raises an IntegrityError and leaves the store unchanged
(the id is still present exactly once), so the operation is not an
idempotent no-op — callers guard it with a pre-check instead. -/
theorem dbInsert_record_behavior (store : List String) (id : String) :
    (store.contains id = true → dbInsert store id = Except.error ()) ∧
      (store.contains id = false → dbInsert store id = Except.ok (store ++ [id])) := by
  constructor
  · intro h
    simp only [dbInsert, h, if_true]
  · intro h
    simp only [dbInsert, h, Bool.false_eq_true, if_false]

/-- Witness for amended C3 at concrete inputs: inserting `"a"` into
`["b"]` appends it. -/
theorem dbInsert_record_behavior_witness :
    dbInsert ["b"] "a" = Except.ok ["b", "a"] :=
  (dbInsert_record_behavior ["b"] "a").2 (by decide)

/-- Counterexample for C4: with the empty store and a scraped sequence
repeating id `"a"` (`[a, a, b]`, so `k = 3` unsent postings, and
`min(k, 8) = 3`), only 2 sends are attempted: the second successful send
of `"a"` raises IntegrityError from the recording `INSERT`, aborting the
batch before `"b"` is ever sent. -/
theorem send_new_jobs_duplicate_aborts :
    countUnsent [] [Job.mk "a" "t" "u", Job.mk "a" "t" "u", Job.mk "b" "t" "u"] = 3 ∧
    min (countUnsent [] [Job.mk "a" "t" "u", Job.mk "a" "t" "u", Job.mk "b" "t" "u"])
      JOBS_TO_SEND = 3 ∧
    (send_new_jobs (fun _ => true) []
      [Job.mk "a" "t" "u", Job.mk "a" "t" "u", Job.mk "b" "t" "u"]).events.length = 2 ∧
    (send_new_jobs (fun _ => true) []
      [Job.mk "a" "t" "u", Job.mk "a" "t" "u", Job.mk "b" "t" "u"]).aborted = true :=
  ⟨rfl, rfl, rfl, rfl⟩

/-- Amended C4: for every scraped sequence with pairwise-distinct posting
ids of which `k` are not yet in the Dedup Store, a batch run attempts
exactly `min(k, 8)` sends.  (When the scraped sequence repeats an id, a
second successful send of that id raises IntegrityError from the
recording `INSERT` and aborts the batch early, so fewer sends can be
attempted — see the counterexample.) -/
theorem send_new_jobs_cap_enforcement (sendOk : Nat → Bool) (store : List String)
    (jobs : List Job) (h : (jobs.map Job.id).Nodup) :
    (send_new_jobs sendOk store jobs).events.length =
      min (countUnsent store jobs) JOBS_TO_SEND := by
  obtain ⟨l, hl, hsub⟩ := selectNewAux_append store jobs []
  have hlen : (selectNew store jobs).length =
      min (countUnsent store jobs) JOBS_TO_SEND := by
    have h8 : ([] : List Job).length < JOBS_TO_SEND := by
      simp [JOBS_TO_SEND]
    have := selectNewAux_length store jobs [] h8
    simpa [selectNew] using this
  have hnodup : ((selectNew store jobs).map Job.id).Nodup := by
    rw [selectNew, hl, List.nil_append]
    exact (hsub.map Job.id).nodup h
  have habs : ∀ j ∈ selectNew store jobs, store.contains j.id = false := by
    intro j hj
    rcases selectNewAux_mem store jobs [] j hj with h' | ⟨h2, _⟩
    · exact absurd h' (List.not_mem_nil _)
    · simpa [dbContains] using h2
  rw [send_new_jobs, sendLoop_length_of_nodup sendOk _ store 0 0 hnodup habs]
  exact hlen

/-- Witness for amended C4, the spec's own scenario: the store holds 5 of
10 scraped (distinct) ids and the cap is 8, so exactly 5 sends are
attempted. -/
theorem send_new_jobs_cap_enforcement_witness :
    (send_new_jobs (fun _ => true) ["0", "1", "2", "3", "4"]
      [Job.mk "0" "t" "u", Job.mk "1" "t" "u", Job.mk "2" "t" "u",
       Job.mk "3" "t" "u", Job.mk "4" "t" "u", Job.mk "5" "t" "u",
       Job.mk "6" "t" "u", Job.mk "7" "t" "u", Job.mk "8" "t" "u",
       Job.mk "9" "t" "u"]).events.length = 5 := by
  rw [send_new_jobs_cap_enforcement (fun _ => true) ["0", "1", "2", "3", "4"]
    [Job.mk "0" "t" "u", Job.mk "1" "t" "u", Job.mk "2" "t" "u",
     Job.mk "3" "t" "u", Job.mk "4" "t" "u", Job.mk "5" "t" "u",
     Job.mk "6" "t" "u", Job.mk "7" "t" "u", Job.mk "8" "t" "u",
     Job.mk "9" "t" "u"] (by decide)]
  decide

/-- Claim C5: when the rendered page carries challenge markers (the
first attempt's outcome is the captcha RuntimeError), the scrape returns
the empty list after exactly one attempt, for every retry ceiling that
admits an attempt at all — the `"Captcha" in str(e)` test fires before
the `attempt < max_retries` test, so no further retry is performed. -/
theorem scrape_captcha_short_circuit (outcome : Nat → AttemptOutcome)
    (maxRetries : Nat) (hr : 1 ≤ maxRetries)
    (hc : outcome 1 = AttemptOutcome.captcha) :
    scrape_indeed_jobs_pw outcome maxRetries = (some [], 1) := by
  obtain ⟨r, rfl⟩ : ∃ r, maxRetries = r + 1 :=
    ⟨maxRetries - 1, (Nat.succ_pred_eq_of_pos hr).symm⟩
  rw [scrape_indeed_jobs_pw, scrapeLoopAux, hc]

/-- Witness for C5: a concrete challenge page under the default retry
ceiling of 3 halts after one attempt with the empty result. -/
theorem scrape_captcha_short_circuit_witness :
    scrape_indeed_jobs_pw (fun _ => AttemptOutcome.captcha) 3 = (some [], 1) :=
  scrape_captcha_short_circuit (fun _ => AttemptOutcome.captcha) 3
    (by decide) rfl

/-- Claim C6: on a page that never produces a matching selector (and is
never challenge-detected), the controller performs exactly `maxRetries`
attempts (for any positive ceiling, in particular the default 3) and
then returns the empty list. -/
theorem scrape_retry_ceiling (outcome : Nat → AttemptOutcome)
    (maxRetries : Nat) (hr : 1 ≤ maxRetries)
    (h : ∀ n, outcome n = AttemptOutcome.noSelector) :
    scrape_indeed_jobs_pw outcome maxRetries = (some [], maxRetries) := by
  obtain ⟨r, rfl⟩ : ∃ r, maxRetries = r + 1 :=
    ⟨maxRetries - 1, (Nat.succ_pred_eq_of_pos hr).symm⟩
  rw [scrape_indeed_jobs_pw]
  exact scrapeLoopAux_noSelector outcome h r 1

/-- Witness for C6: a concrete never-matching page under the default
ceiling of 3 yields exactly 3 attempts and the empty list. -/
theorem scrape_retry_ceiling_witness :
    scrape_indeed_jobs_pw (fun _ => AttemptOutcome.noSelector) 3 = (some [], 3) :=
  scrape_retry_ceiling (fun _ => AttemptOutcome.noSelector) 3 (by decide)
    (fun _ => rfl)

/-- Counterexample for C7: a cookie entry missing the required `name`
field is not dropped with a warning — `c["name"]` raises KeyError, the
whole load aborts, and the following well-formed entry is never
processed. -/
theorem load_cookies_missing_field_aborts :
    load_playwright_cookies
      [RawCookie.mk none (some "v") (some "d") none none none none none,
       RawCookie.mk (some "n2") (some "v2") (some "d2") none none none none none] =
      Except.error "name" := rfl

/-- Amended C7: an input cookie entry missing any of the required fields
`name`, `value` or `domain` makes the whole load fail with an uncaught
KeyError (entries are never dropped individually; remaining entries are
not processed, and the error escapes to the caller). -/
theorem load_cookies_missing_field_error (cs : List RawCookie) (c : RawCookie)
    (hmem : c ∈ cs) (hmiss : c.name = none ∨ c.value = none ∨ c.domain = none) :
    ∃ k, load_playwright_cookies cs = Except.error k := by
  induction cs with
  | nil => exact absurd hmem (List.not_mem_nil c)
  | cons a rest ih =>
    rw [load_playwright_cookies]
    cases hs : sanitizeCookie a with
    | error k => exact ⟨k, rfl⟩
    | ok sc =>
      rcases List.mem_cons.mp hmem with rfl | hmem'
      · obtain ⟨k, hk⟩ := sanitizeCookie_error c hmiss
        rw [hk] at hs
        exact Except.noConfusion hs
      · obtain ⟨k, hk⟩ := ih hmem'
        rw [hk]
        exact ⟨k, rfl⟩

/-- Witness for amended C7 at a concrete input: an entry whose `domain`
is absent makes the load return an error. -/
theorem load_cookies_missing_field_error_witness :
    ∃ k, load_playwright_cookies
      [RawCookie.mk (some "n") (some "v") none none none none none none] =
      Except.error k :=
  load_cookies_missing_field_error _
    (RawCookie.mk (some "n") (some "v") none none none none none none)
    (List.mem_singleton.mpr rfl) (Or.inr (Or.inr rfl))

/-- Claim C8: every invocation of the manual `/test` handler sends
exactly one Telegram message (the caller never receives silence); when
no unsent posting exists it is exactly one "No new jobs to send." notice
and the store is unchanged; otherwise it is one posting picked from the
unsent list, recorded only when its send is reported successful. -/
theorem handle_test_always_responds (store : List String) (jobs : List Job)
    (pick : Nat) (sendOk : Bool) :
    (handle_test store jobs pick sendOk).texts.length = 1 ∧
    ((jobs.filter (fun j => !dbContains store j.id)).isEmpty = true →
      handle_test store jobs pick sendOk =
        TestResult.mk ["No new jobs to send."] store) ∧
    ((jobs.filter (fun j => !dbContains store j.id)).isEmpty = false →
      ∃ j ∈ jobs.filter (fun j => !dbContains store j.id),
        handle_test store jobs pick sendOk =
          TestResult.mk [j.title ++ "\n" ++ j.url]
            (if sendOk then store ++ [j.id] else store)) := by
  by_cases he : (jobs.filter (fun j => !dbContains store j.id)).isEmpty = true
  · have h1 : handle_test store jobs pick sendOk =
        TestResult.mk ["No new jobs to send."] store := by
      simp only [handle_test, he, if_true]
    exact ⟨by rw [h1]; rfl, fun _ => h1,
      fun hcon => absurd (he.symm.trans hcon) (by decide)⟩
  · rw [Bool.not_eq_true] at he
    have hpos : 0 < (jobs.filter (fun j => !dbContains store j.id)).length := by
      cases hu' : jobs.filter (fun j => !dbContains store j.id) with
      | nil =>
        rw [hu'] at he
        exact absurd he (by simp)
      | cons a l => simp
    have hlt : pick % (jobs.filter (fun j => !dbContains store j.id)).length <
        (jobs.filter (fun j => !dbContains store j.id)).length :=
      Nat.mod_lt _ hpos
    have h1 : handle_test store jobs pick sendOk =
        TestResult.mk
          [((jobs.filter (fun j => !dbContains store j.id)).getD
              (pick % (jobs.filter (fun j => !dbContains store j.id)).length)
              ⟨"", "", ""⟩).title ++ "\n" ++
            ((jobs.filter (fun j => !dbContains store j.id)).getD
              (pick % (jobs.filter (fun j => !dbContains store j.id)).length)
              ⟨"", "", ""⟩).url]
          (if sendOk then
            store ++ [((jobs.filter (fun j => !dbContains store j.id)).getD
              (pick % (jobs.filter (fun j => !dbContains store j.id)).length)
              ⟨"", "", ""⟩).id]
          else store) := by
      simp only [handle_test, he, Bool.false_eq_true, if_false]
      cases sendOk <;> simp
    have hmem : ((jobs.filter (fun j => !dbContains store j.id)).getD
        (pick % (jobs.filter (fun j => !dbContains store j.id)).length)
        ⟨"", "", ""⟩) ∈ jobs.filter (fun j => !dbContains store j.id) := by
      rw [List.getD_eq_getElem _ _ hlt]
      exact List.getElem_mem hlt
    exact ⟨by rw [h1]; rfl, fun hcon => absurd (hcon.symm.trans he) (by decide),
      fun _ => ⟨_, hmem, h1⟩⟩

/-- Witness for C8 at a concrete input: with every scraped posting
already recorded, the handler sends exactly the notice and adds no
record. -/
theorem handle_test_always_responds_witness :
    handle_test ["a"] [Job.mk "a" "t" "u"] 7 true =
      TestResult.mk ["No new jobs to send."] ["a"] :=
  (handle_test_always_responds ["a"] [Job.mk "a" "t" "u"] 7 true).2.1 (by decide)

theorem extractLoop_stop (maxResults : Nat) (els : List Element) (acc : List Job)
    (h : maxResults ≤ acc.length) : extractLoop maxResults els acc = acc := by
  cases els with
  | nil => rw [extractLoop]
  | cons el rest => rw [extractLoop, if_pos h]

theorem extractLoop_url (maxResults : Nat) :
    ∀ (els : List Element) (acc : List Job),
      (∀ j ∈ acc, j.url = "https://uk.indeed.com/viewjob?jk=" ++ j.id) →
      ∀ j ∈ extractLoop maxResults els acc,
        j.url = "https://uk.indeed.com/viewjob?jk=" ++ j.id := by
  intro els
  induction els with
  | nil =>
    intro acc hacc j hj
    rw [extractLoop] at hj
    exact hacc j hj
  | cons el rest ih =>
    intro acc hacc j hj
    simp only [extractLoop] at hj
    split at hj
    · exact hacc j hj
    · split at hj
      · exact ih acc hacc j hj
      · refine ih _ ?_ j hj
        intro j' hj'
        rcases List.mem_append.mp hj' with h' | h'
        · exact hacc j' h'
        · rcases List.mem_singleton.mp h' with rfl
          rfl

/-- Claim C9: the extractor's selector candidates are tried in priority
order and the first that matches wins — on a page where the first
selector has no match but the second does, extraction proceeds from
exactly the second selector's matched elements; and when no candidate
matches, the attempt is classified as a scraping failure (the
`noSelector` outcome that feeds the retry path), never as a successful
zero-results extraction. -/
theorem selector_fallback (page : Page) (maxResults : Nat) :
    ((page.querySelectorAll "a.tapItem" = [] ∧
      page.querySelectorAll "div.job_seen_beacon a" ≠ []) →
      extractAttempt page maxResults =
        some (extractJobs (page.querySelectorAll "div.job_seen_beacon a")
          maxResults)) ∧
    ((∀ s ∈ selectors, page.querySelectorAll s = []) →
      attemptOutcomeOfPage page maxResults = AttemptOutcome.noSelector) := by
  constructor
  · rintro ⟨h1, h2⟩
    have hne : ¬ (page.querySelectorAll "div.job_seen_beacon a").isEmpty = true :=
      fun hc => h2 (List.isEmpty_iff.mp hc)
    have hfind : findSelector page selectors = some "div.job_seen_beacon a" := by
      rw [selectors, findSelector, h1]
      simp only [List.isEmpty_nil, if_true]
      rw [findSelector, if_neg hne]
    rw [extractAttempt, hfind]
  · intro h
    have hnone : extractAttempt page maxResults = none := by
      rw [extractAttempt, findSelector_eq_none page selectors h]
    rw [attemptOutcomeOfPage, hnone]

/-- Witness for C9: a concrete page matching only the second candidate
selector, at the configured scrape cap of 33. -/
theorem selector_fallback_witness :
    extractAttempt
      (Page.mk fun s => if s = "div.job_seen_beacon a"
        then [Element.mk (some "z") none none] else []) JOBS_TO_SCRAPE =
      some (extractJobs
        ((Page.mk fun s => if s = "div.job_seen_beacon a"
          then [Element.mk (some "z") none none] else []).querySelectorAll
            "div.job_seen_beacon a") JOBS_TO_SCRAPE) :=
  (selector_fallback
    (Page.mk fun s => if s = "div.job_seen_beacon a"
      then [Element.mk (some "z") none none] else []) JOBS_TO_SCRAPE).1
    ⟨by decide, by decide⟩

/-- Counterexample for C10: a matched element with no identifier
attribute whose `href` ends in `jk=` (an empty `jk` token) is not
skipped — `'jk=' in href` holds, `split('jk=')[1].split('&')[0]` is the
empty string, and a posting with the empty id is appended, so not every
returned posting has a non-empty id. -/
theorem extract_empty_id_counterexample :
    (extractJobs [Element.mk none (some "https://uk.indeed.com/rc/clk?jk=") none]
      JOBS_TO_SCRAPE).map Job.id = [""] := rfl

/-- Amended C10: each returned posting's url is exactly the viewjob URL
built from its id, and an element whose identifier attribute is empty or
absent and whose href contains no `jk=` parameter is silently skipped
without counting toward the result cap; however the id of a returned
posting can be empty, when it comes from an href whose `jk=` token is
the empty string (see the counterexample). -/
theorem extract_posting_invariants (els : List Element) (maxResults : Nat) :
    (∀ j ∈ extractJobs els maxResults,
      j.url = "https://uk.indeed.com/viewjob?jk=" ++ j.id) ∧
    (∀ (el : Element) (acc : List Job), el.dataJk.getD "" = "" →
      extractJk (el.href.getD "") = none →
      extractLoop maxResults (el :: els) acc = extractLoop maxResults els acc) := by
  constructor
  · intro j hj
    exact extractLoop_url maxResults els []
      (fun j' hj' => absurd hj' (List.not_mem_nil j')) j hj
  · intro el acc h1 h2
    by_cases hb : maxResults ≤ acc.length
    · rw [extractLoop_stop maxResults _ acc hb, extractLoop_stop maxResults els acc hb]
    · simp only [extractLoop]
      rw [if_neg hb, h1]
      simp [h2]

/-- Witness for amended C10 at a concrete input: the posting extracted
from an href carrying `jk=9` has exactly the viewjob URL built from its
id. -/
theorem extract_posting_invariants_witness :
    (Job.mk "9" "Job" "https://uk.indeed.com/viewjob?jk=9").url =
      "https://uk.indeed.com/viewjob?jk=" ++
        (Job.mk "9" "Job" "https://uk.indeed.com/viewjob?jk=9").id :=
  (extract_posting_invariants [Element.mk none (some "x?jk=9&y") none]
    JOBS_TO_SCRAPE).1 (Job.mk "9" "Job" "https://uk.indeed.com/viewjob?jk=9")
    (by decide)
